import Mathlib

set_option maxHeartbeats 1000000
set_option maxRecDepth 4000

/-!
Verification development for the mcpify detection-and-matching pipeline.

Shallow embedding of the source under verification:
  mcpify/detect/composite.py, mcpify/detect/base.py, mcpify/detect/openai.py,
  mcpify/detect/camel.py, mcpify/detect/types.py, mcpify/models/tool.py,
  mcpify/models/function.py, mcpify/core/analysis/python_parser.py,
  mcpify/core/semantic/llm_client.py, mcpify/core/semantic/api_matcher.py.

Python strings are modelled as Lean String or List Char; Python dicts built
by the code are modelled as structures or association lists; fallible code is
modelled with Option/Except.  External collaborators (the tree-sitter token
layout, the network clients, the json stdlib module) are modelled at their
interface boundary, as the spec prescribes.
-/

/-- Model of Python truthiness for an optional string: None and "" are falsy. -/
def strTruthy : Option String → Bool
  | none => false
  | some s => s != ""

/-- Python str.startswith, character-wise. -/
def pyStartsWith (s pre : String) : Bool :=
  List.isPrefixOf pre.data s.data

/-- A tool parameter dictionary as the detectors build it (a plain dict in the
source).  The detectors sometimes omit the "required" key, hence the Option. -/
structure ParamDict where
  name : String
  type : String
  description : String
  required : Option Bool
deriving DecidableEq, Repr

/-- ToolSpec from mcpify/detect/types.py: name, description, args, parameters. -/
structure ToolSpec where
  name : String
  description : String
  args : List String
  parameters : List ParamDict
deriving DecidableEq, Repr

/-!
## CompositeDetector (mcpify/detect/composite.py)

`CompositeDetector._detect_tools` iterates its detectors in order; a detector
that raises is caught, logged and skipped (modelled by `none`).  Each produced
tool is appended to `all_tools` only if its name is not yet in the `tool_names`
set (modelled as a list used only through membership).
-/

/-- The inner loop of CompositeDetector._detect_tools over one detector's
tool list: `for tool in detector_tools: if tool.name not in tool_names: ...`. -/
def addDetected : List ToolSpec × List String → List ToolSpec → List ToolSpec × List String
  | (acc, seen), [] => (acc, seen)
  | (acc, seen), t :: ts =>
    if t.name ∈ seen then addDetected (acc, seen) ts
    else addDetected (acc ++ [t], t.name :: seen) ts

/-- CompositeDetector._detect_tools: fold the per-detector outputs (a failing
detector contributes `none`, the caught-exception branch) through the
name-deduplicating accumulator, returning `all_tools`. -/
def compositeDetectTools (outputs : List (Option (List ToolSpec))) : List ToolSpec :=
  (outputs.foldl
    (fun st o => match o with | none => st | some ts => addDetected st ts)
    ([], [])).1

/-- The concatenation of all tools the (non-failing) strategies produce, in
strategy order: the reference stream the dedup loop consumes. -/
def flattenRuns (outputs : List (Option (List ToolSpec))) : List ToolSpec :=
  outputs.foldr (fun o acc => o.getD [] ++ acc) []

/-- Strategy A's "foo" tool of the C1 scenario. -/
def toolFooA : ToolSpec := { name := "foo", description := "from A", args := [], parameters := [] }

/-- Strategy B's "foo" tool of the C1 scenario, same name, different description. -/
def toolFooB : ToolSpec := { name := "foo", description := "from B", args := [], parameters := [] }

/-!
## Function inventory (mcpify/core/analysis/python_parser.py, mcpify/models/function.py)
-/

/-- Parameter from mcpify/models/function.py. -/
structure Parameter where
  name : String
  type_annotation : Option String := none
  default_value : Option String := none
  is_required : Bool := true
deriving DecidableEq, Repr

/-- FunctionInfo from mcpify/models/function.py.  file_path is the path as a
string. -/
structure FunctionInfo where
  name : String
  file_path : String
  line_number : Nat
  parameters : List Parameter
  return_type : Option String := none
  docstring : Option String := none
  is_async : Bool := false
  is_method : Bool := false
  class_name : Option String := none
  decorators : List String := []
deriving DecidableEq, Repr

/-- The attributes PythonParser reads off a tree-sitter node through the
token-level sub-extractors (_extract_parameters before its self/cls filter,
_extract_return_type, _extract_docstring, _extract_decorators, start_point).
The token layout itself belongs to the external tree-sitter collaborator, so
those sub-extractions are modelled as node attributes. -/
structure NodePayload where
  params : List Parameter := []
  returnType : Option String := none
  docstring : Option String := none
  isAsync : Bool := false
  decorators : List String := []
  startRow : Nat := 0
deriving DecidableEq, Repr

/-- A tree-sitter syntax node: node type, the optional "name" field child
(child_by_field_name("name")), payload attributes, and child nodes. -/
inductive PyNode where
  | mk (ntype : String) (pname : Option String) (payload : NodePayload) (children : List PyNode)

/-- The node type of a syntax node. -/
def PyNode.ntype : PyNode → String
  | .mk t _ _ _ => t

/-- The text of the name-field child, when present. -/
def PyNode.pname : PyNode → Option String
  | .mk _ nm _ _ => nm

/-- The modelled sub-extractor attributes of the node. -/
def PyNode.payload : PyNode → NodePayload
  | .mk _ _ pl _ => pl

/-- The child nodes. -/
def PyNode.children : PyNode → List PyNode
  | .mk _ _ _ cs => cs

mutual

/-- PythonParser._find_nodes_by_type: the node itself when its type matches,
followed by the matches in all children, recursively. -/
def findNodesByType (n : PyNode) (ty : String) : List PyNode :=
  match n with
  | .mk t nm pl cs => (if t == ty then [PyNode.mk t nm pl cs] else []) ++ findNodesInList cs ty

/-- The `for child in node.children` loop of _find_nodes_by_type. -/
def findNodesInList (l : List PyNode) (ty : String) : List PyNode :=
  match l with
  | [] => []
  | c :: cs => findNodesByType c ty ++ findNodesInList cs ty

end

/-- PythonParser._extract_function_info: None when the node has no name field
or when the name starts with "_" but not with "__" (the private-name filter);
otherwise the FunctionInfo record, with self/cls filtered out of the
parameters (the tail end of _extract_parameters). -/
def extractFunctionInfo (node : PyNode) (filePath : String)
    (className : Option String) (isMethod : Bool) : Option FunctionInfo :=
  match node.pname with
  | none => none
  | some functionName =>
    if pyStartsWith functionName "_" && !(pyStartsWith functionName "__") then none
    else some
      { name := functionName
        file_path := filePath
        line_number := node.payload.startRow + 1
        parameters := node.payload.params.filter
          (fun p => !(p.name == "self" || p.name == "cls"))
        return_type := node.payload.returnType
        docstring := node.payload.docstring
        is_async := node.payload.isAsync
        is_method := isMethod
        class_name := className
        decorators := node.payload.decorators }

/-- PythonParser.parse_file on an already-parsed syntax tree: first every
function_definition found from the root (plain function records), then, for
every class_definition, the function_definitions found under it again, as
method records carrying the class name (the empty string when the class has
no name node, matching _get_node_text(None)). -/
def parseFile (filePath : String) (root : PyNode) : List FunctionInfo :=
  (findNodesByType root "function_definition").filterMap
    (fun n => extractFunctionInfo n filePath none false) ++
  ((findNodesByType root "class_definition").map
    (fun c => (findNodesByType c "function_definition").filterMap
      (fun m => extractFunctionInfo m filePath (some (c.pname.getD "")) true))).flatten

/-- A module tree with a private helper function and a class holding a dunder
method and a public method. -/
def sampleInitNode : PyNode := .mk "function_definition" (some "__init__") {} []

/-- The public method node of the sample tree. -/
def sampleRunNode : PyNode := .mk "function_definition" (some "run") {} []

/-- The private-by-convention top-level function node of the sample tree. -/
def sampleHelperNode : PyNode := .mk "function_definition" (some "_helper") {} []

/-- The class node of the sample tree. -/
def sampleClassNode : PyNode :=
  .mk "class_definition" (some "Greeter") {} [sampleInitNode, sampleRunNode]

/-- The sample module tree. -/
def sampleModule : PyNode := .mk "module" none {} [sampleHelperNode, sampleClassNode]

/-- The plain top-level record parse_file produces for the sample tree's
public method. -/
def sampleRunRecord : FunctionInfo :=
  { name := "run", file_path := "sample.py", line_number := 1, parameters := [] }

/-!
## MCPTool wire schema (mcpify/models/tool.py)
-/

/-- MCPToolParameter from mcpify/models/tool.py. -/
structure MCPToolParameter where
  name : String
  type : String
  description : String
  required : Bool := true
  default : Option String := none
deriving DecidableEq, Repr

/-- MCPTool from mcpify/models/tool.py: a tool enriched with the originating
FunctionInfo and an implementation type tag. -/
structure MCPTool where
  name : String
  description : String
  function_info : FunctionInfo
  parameters : List MCPToolParameter
  implementation_type : String := "python_function"
deriving DecidableEq, Repr

/-- One JSON-Schema property entry of the wire schema; the "default" key is
present exactly when the parameter's default is not None (the
`if param.default is not None` branch of to_mcp_schema). -/
structure PropEntry where
  type : String
  description : String
  default : Option String := none
deriving DecidableEq, Repr

/-- Python dict assignment `d[k] = v` on an insertion-ordered dict: replace in
place when the key exists, append otherwise. -/
def dictSet (d : List (String × PropEntry)) (k : String) (v : PropEntry) :
    List (String × PropEntry) :=
  if d.any (fun kv => kv.1 == k) then
    d.map (fun kv => if kv.1 == k then (k, v) else kv)
  else d ++ [(k, v)]

/-- The wire schema dict returned by MCPTool.to_mcp_schema (the inputSchema
"type": "object" field is constant and omitted from the model). -/
structure McpSchema where
  name : String
  description : String
  properties : List (String × PropEntry)
  required : List String
deriving DecidableEq, Repr

/-- One iteration of the `for param in self.parameters` loop of to_mcp_schema:
set the property entry for the parameter's name and append the name to
`required` when the required flag is set. -/
def mcpSchemaStep (st : List (String × PropEntry) × List String)
    (p : MCPToolParameter) : List (String × PropEntry) × List String :=
  (dictSet st.1 p.name { type := p.type, description := p.description, default := p.default },
   if p.required then st.2 ++ [p.name] else st.2)

/-- MCPTool.to_mcp_schema. -/
def toMcpSchema (t : MCPTool) : McpSchema :=
  let st := t.parameters.foldl mcpSchemaStep ([], [])
  { name := t.name, description := t.description, properties := st.1, required := st.2 }

/-- A placeholder originating function record for concrete MCPTool values. -/
def dummyFunctionInfo : FunctionInfo :=
  { name := "f", file_path := "a.py", line_number := 1, parameters := [] }

/-- A tool whose two parameters share the name "x", one required, one not. -/
def dupNameTool : MCPTool :=
  { name := "t", description := "d", function_info := dummyFunctionInfo,
    parameters :=
      [ { name := "x", type := "string", description := "first", required := true },
        { name := "x", type := "string", description := "second", required := false } ] }

/-- A tool with distinct parameter names, one required and one optional. -/
def okTool : MCPTool :=
  { name := "t2", description := "d2", function_info := dummyFunctionInfo,
    parameters :=
      [ { name := "a", type := "string", description := "pa", required := true },
        { name := "b", type := "integer", description := "pb", required := false } ] }

/-!
## Detector construction (mcpify/detect/openai.py, mcpify/detect/camel.py)
-/

/-- Python exceptions a detector constructor can raise. -/
inductive PyErr where
  | importErr (msg : String)
  | valueErr (msg : String)
deriving DecidableEq, Repr

/-- The state OpenaiDetector.__init__ leaves behind: whether openai.api_key
was assigned from the parameter, whether self.openai_client is set (not
None), and whether the basic-heuristic warning was printed. -/
structure OpenaiDetectorState where
  apiKeyAssigned : Bool
  clientIsSet : Bool
  warnedBasicHeuristic : Bool
deriving DecidableEq, Repr

/-- OpenaiDetector.__init__, over the openai_api_key parameter and the
OPENAI_API_KEY environment variable (None when unset).  It never raises: with
no truthy key it prints a warning and continues with openai_client = None. -/
def openaiDetectorInit (openaiApiKey envOpenaiApiKey : Option String) :
    Except PyErr OpenaiDetectorState :=
  if strTruthy openaiApiKey then .ok ⟨true, true, false⟩
  else if strTruthy envOpenaiApiKey then .ok ⟨false, true, false⟩
  else .ok ⟨false, false, true⟩

/-- The state CamelDetector.__init__ leaves behind. -/
structure CamelDetectorState where
  modelName : String
  agentInitialized : Bool
deriving DecidableEq, Repr

/-- CamelDetector.__init__: raises ImportError when camel-ai is not
installed, then raises ValueError (the credential error) when OPENAI_API_KEY
is not set; otherwise _initialize_agent builds the ChatAgent (an external
collaborator, modelled as the initialized flag). -/
def camelDetectorInit (camelAvailable : Bool) (envOpenaiApiKey : Option String)
    (modelName : String) : Except PyErr CamelDetectorState :=
  if !camelAvailable then
    .error (.importErr "camel-ai is required for CamelDetector. Install it with: pip install camel-ai")
  else if !(strTruthy envOpenaiApiKey) then
    .error (.valueErr "OpenAI API key is required for CamelDetector. Set OPENAI_API_KEY environment variable.")
  else .ok ⟨modelName, true⟩

/-!
## Argparse extraction (mcpify/detect/openai.py, _extract_argparse_tools)
-/

/-- An opening brace as text. -/
def lbrace : String := "\x7b"

/-- A closing brace as text. -/
def rbrace : String := "\x7d"

/-- The f-string template token for a parameter placeholder. -/
def braced (s : String) : String := lbrace ++ s ++ rbrace

/-- A Python constant as ast.Constant holds it, in the cases the extractor
inspects. -/
inductive PyConst where
  | s (v : String)
  | i (v : Int)
  | b (v : Bool)
deriving DecidableEq, Repr

/-- A fragment of the Python ast module's tree: the node shapes
ArgparseVisitor inspects.  `other` stands for every other node kind, kept
only for its children so generic_visit can descend.  (ast.parse itself is the
Python stdlib, external; the extractor is modelled from the tree onward.) -/
inductive PyAst where
  | constant (v : PyConst)
  | nameE (id : String)
  | attribute (value : PyAst) (attr : String)
  | call (func : PyAst) (args : List PyAst) (keywords : List (String × PyAst))
  | other (children : List PyAst)

/-- The per-call argument record ArgparseVisitor builds.  help is kept for
string constants (a non-string help constant would make the later
ToolSpec construction ill-typed in Python as well). -/
structure ArgInfo where
  name : String
  help : Option String := none
  type : Option String := none
  action : Option PyConst := none
  nargs : Option PyConst := none
deriving DecidableEq, Repr

/-- The `for keyword in node.keywords` loop of visit_Call: record help
(constant), type (a Name node), action (constant) and nargs (constant). -/
def argKeywords (kws : List (String × PyAst)) (base : ArgInfo) : ArgInfo :=
  kws.foldl (fun info kv =>
    match kv with
    | ("help", .constant (.s v)) => { info with help := some v }
    | ("type", .nameE id) => { info with type := some id }
    | ("action", .constant c) => { info with action := some c }
    | ("nargs", .constant c) => { info with nargs := some c }
    | _ => info) base

mutual

/-- ArgparseVisitor.visit over one node: record an add_argument call whose
first positional argument is a string constant, then descend generically. -/
def argparseVisit (a : PyAst) : List ArgInfo :=
  match a with
  | .constant _ => []
  | .nameE _ => []
  | .attribute v _ => argparseVisit v
  | .call f args kws =>
    (match f, args with
     | .attribute _ attr, .constant (.s argName) :: _ =>
        if attr == "add_argument" then [argKeywords kws { name := argName }] else []
     | _, _ => []) ++
    argparseVisit f ++ argparseVisitList args ++ argparseVisitKws kws
  | .other cs => argparseVisitList cs

/-- generic_visit over a child list. -/
def argparseVisitList (l : List PyAst) : List ArgInfo :=
  match l with
  | [] => []
  | a :: rest => argparseVisit a ++ argparseVisitList rest

/-- generic_visit over keyword values. -/
def argparseVisitKws (l : List (String × PyAst)) : List ArgInfo :=
  match l with
  | [] => []
  | kv :: rest => argparseVisit kv.2 ++ argparseVisitKws rest

end

/-- BaseDetector._map_python_type_to_json. -/
def mapPythonTypeToJson (pythonType : String) : String :=
  if pythonType == "str" then "string"
  else if pythonType == "int" then "integer"
  else if pythonType == "float" then "number"
  else if pythonType == "bool" then "boolean"
  else if pythonType == "list" then "array"
  else "string"

/-- The conversion of one collected argument in _extract_argparse_tools:
only --flags become tools; a store_true action yields no parameter; nargs=2
yields two positional parameters; otherwise one value parameter. -/
def argInfoToTool (arg : ArgInfo) : Option ToolSpec :=
  if pyStartsWith arg.name "--" then
    let toolName := String.mk ((arg.name.data.drop 2).map (fun c => if c == '-' then '_' else c))
    let description := arg.help.getD ("Execute " ++ toolName)
    if arg.action == some (PyConst.s "store_true") then
      some { name := toolName, description := description, args := [arg.name], parameters := [] }
    else
      let paramType := mapPythonTypeToJson (arg.type.getD "str")
      if arg.nargs == some (.i 2) then
        some { name := toolName, description := description,
               args := [arg.name, braced (toolName ++ "1"), braced (toolName ++ "2")],
               parameters :=
                 [ { name := toolName ++ "1", type := paramType,
                     description := "First " ++ toolName ++ " value", required := none },
                   { name := toolName ++ "2", type := paramType,
                     description := "Second " ++ toolName ++ " value", required := none } ] }
      else
        some { name := toolName, description := description,
               args := [arg.name, braced toolName],
               parameters :=
                 [ { name := toolName, type := paramType,
                     description := "The " ++ toolName ++ " value", required := none } ] }
  else none

/-- OpenaiDetector._extract_argparse_tools over a parsed tree. -/
def extractArgparseTools (tree : PyAst) : List ToolSpec :=
  (argparseVisit tree).filterMap argInfoToTool

/-- The syntax tree of the C7 scenario CLI file: a single statement
`parser.add_argument('--name', help='User name')`. -/
def addArgumentScenario : PyAst :=
  .other [ .call (.attribute (.nameE "parser") "add_argument")
    [.constant (.s "--name")]
    [("help", .constant (.s "User name"))] ]

/-!
## Keyword ranking (mcpify/core/semantic/api_matcher.py, _rank_with_keywords)
-/

/-- Python str.lower, character-wise. -/
def pyLower (s : String) : String := String.mk (s.data.map Char.toLower)

/-- Python str.replace for a single-character pattern. -/
def pyReplaceChar (s : String) (a b : Char) : String :=
  String.mk (s.data.map (fun c => if c == a then b else c))

/-- Worker for Python str.split() with no separator: collect maximal
nonempty runs of non-whitespace characters. -/
def pyWordsAux : List Char → List Char → List String
  | [], cur => if cur.isEmpty then [] else [String.mk cur.reverse]
  | c :: cs, cur =>
    if c.isWhitespace then
      if cur.isEmpty then pyWordsAux cs [] else String.mk cur.reverse :: pyWordsAux cs []
    else pyWordsAux cs (c :: cur)

/-- Python str.split() with no separator. -/
def pyWords (s : String) : List String := pyWordsAux s.data []

/-- Python set(s.split()). -/
def wordSet (s : String) : Finset String := (pyWords s).toFinset

/-- set(user_request.lower().split()). -/
def userWords (req : String) : Finset String := wordSet (pyLower req)

/-- set(func.name.lower().replace("_", " ").split()). -/
def nameWords (f : FunctionInfo) : Finset String :=
  wordSet (pyReplaceChar (pyLower f.name) '_' ' ')

/-- set(func.docstring.lower().split()); empty for an absent docstring (the
code skips the docstring term then). -/
def docWords (f : FunctionInfo) : Finset String :=
  match f.docstring with
  | some d => wordSet (pyLower d)
  | none => ∅

/-- set(func.class_name.lower().replace("_", " ").split()); empty when not a
method. -/
def classWords (f : FunctionInfo) : Finset String :=
  match f.class_name with
  | some c => wordSet (pyReplaceChar (pyLower c) '_' ' ')
  | none => ∅

/-- set(str(func.file_path).lower().replace("/", " ").replace("_", " ").split()). -/
def pathWords (f : FunctionInfo) : Finset String :=
  wordSet (pyReplaceChar (pyReplaceChar (pyLower f.file_path) '/' ' ') '_' ' ')

/-- len(func.docstring), 0 for None. -/
def docLen (f : FunctionInfo) : Nat :=
  match f.docstring with
  | some d => d.length
  | none => 0

/-- calculate_relevance_score from _rank_with_keywords, accumulating the
terms in the order the code adds them.  The scores are dyadic rationals,
represented exactly in ℚ. -/
def calculateRelevanceScore (req : String) (f : FunctionInfo) : ℚ :=
  let uw := userWords req
  let s1 : ℚ := 0 + ((uw ∩ nameWords f).card : ℚ) * 3
  let s2 : ℚ := s1 + (if strTruthy f.docstring then ((uw ∩ docWords f).card : ℚ) * 2 else 0)
  let s3 : ℚ := s2 + (if strTruthy f.class_name then ((uw ∩ classWords f).card : ℚ) * (3 / 2) else 0)
  let s4 : ℚ := s3 + ((uw ∩ pathWords f).card : ℚ) * 1
  let s5 : ℚ := s4 + (if strTruthy f.docstring = true ∧ 50 < docLen f then 1 else 0)
  s5 + (if 1 ≤ f.parameters.length ∧ f.parameters.length ≤ 5 then (1 / 2 : ℚ) else 0)

/-- The spec's flat documentation bonus: +1 for docstring length > 50. -/
def docBonus (f : FunctionInfo) : ℚ := if 50 < docLen f then 1 else 0

/-- The spec's flat parameter-count bonus: +0.5 for 1 to 5 parameters. -/
def paramBonus (f : FunctionInfo) : ℚ :=
  if 1 ≤ f.parameters.length ∧ f.parameters.length ≤ 5 then (1 / 2 : ℚ) else 0

/-- Modelled from the spec sentence: the keyword score formula
3·|name∩request| + 2·|docstring∩request| + 1.5·|class∩request| +
1·|path∩request| plus the two flat bonuses. -/
def specScore (req : String) (f : FunctionInfo) : ℚ :=
  3 * ((userWords req ∩ nameWords f).card : ℚ)
  + 2 * ((userWords req ∩ docWords f).card : ℚ)
  + (3 / 2) * ((userWords req ∩ classWords f).card : ℚ)
  + 1 * ((userWords req ∩ pathWords f).card : ℚ)
  + docBonus f + paramBonus f

/-- The well-matching function of the keyword-mode scenario. -/
def fAdd : FunctionInfo :=
  { name := "add", file_path := "calculator.py", line_number := 1,
    parameters := [ { name := "a" }, { name := "b" } ],
    docstring := some "Add two numbers" }

/-- The unrelated function of the keyword-mode scenario, with the same flat
bonuses as fAdd. -/
def fUnrelated : FunctionInfo :=
  { name := "zzz", file_path := "calculator.py", line_number := 9,
    parameters := [ { name := "x" }, { name := "y" } ] }

/-- A single-quote character. -/
def sqc : Char := '\''

/-!
## Dependency extraction (mcpify/detect/base.py, _extract_dependencies)
-/

/-- Python str.strip() on a character list: whitespace off both ends. -/
def pyStrip (l : List Char) : List Char :=
  ((l.dropWhile Char.isWhitespace).reverse.dropWhile Char.isWhitespace).reverse

/-- Python str.strip(c) for a single strip character. -/
def pyStripChar (l : List Char) (c : Char) : List Char :=
  ((l.dropWhile (· == c)).reverse.dropWhile (· == c)).reverse

/-- Consume a literal prefix, or fail. -/
def dropLit (l : List Char) (lit : String) : Option (List Char) :=
  if List.isPrefixOf lit.data l then some (l.drop lit.data.length) else none

/-- The characters before the first occurrence of c; none when c is absent
(the lazy `(.*?)]` capture of the dependencies regex). -/
def takeUntilChar (l : List Char) (c : Char) : Option (List Char) :=
  if c ∈ l then some (l.takeWhile (· ≠ c)) else none

/-- re.split(r"[>=<!=]", line)[0].strip(): the stripped prefix before the
first version-operator character. -/
def splitPkgName (line : List Char) : List Char :=
  pyStrip (line.takeWhile (fun c => !(c == '>' || c == '=' || c == '<' || c == '!')))

/-- The requirements.txt loop of _extract_dependencies: each stripped,
nonempty, non-comment line contributes its package prefix. -/
def reqDeps (reqLines : List (List Char)) : List (List Char) :=
  reqLines.filterMap (fun rawLine =>
    let line := pyStrip rawLine
    if line ≠ [] ∧ List.isPrefixOf ['#'] line = false then some (splitPkgName line)
    else none)

/-- Match `dependencies\s*=\s*\[(.*?)\]` (DOTALL) at this position. -/
def matchDepsAt (l : List Char) : Option (List Char) :=
  match dropLit l "dependencies" with
  | none => none
  | some r1 =>
    match r1.dropWhile Char.isWhitespace with
    | '=' :: r3 =>
      match r3.dropWhile Char.isWhitespace with
      | '[' :: r5 => takeUntilChar r5 ']'
      | _ => none
    | _ => none

/-- The re.search scan for the dependencies block: leftmost match wins. -/
def findDepsBlock : List Char → Option (List Char)
  | [] => none
  | c :: cs =>
    match matchDepsAt (c :: cs) with
    | some blk => some blk
    | none => findDepsBlock cs

/-- Python str.split(newline): split at every newline, keeping empty pieces. -/
def splitNl : List Char → List (List Char)
  | [] => [[]]
  | c :: cs =>
    if c == '\n' then [] :: splitNl cs
    else
      match splitNl cs with
      | [] => [[c]]
      | p :: ps => (c :: p) :: ps

/-- The pyproject.toml half of _extract_dependencies: capture the
dependencies block, then per line strip whitespace, double quotes, single
quotes and commas (in that order), skip empty and comment lines, and keep
the package prefix.  None models a missing or unreadable file. -/
def pyprojectDeps (content : Option (List Char)) : List (List Char) :=
  match content with
  | none => []
  | some c =>
    match findDepsBlock c with
    | none => []
    | some blk =>
      (splitNl blk).filterMap (fun rawLine =>
        let line := pyStripChar (pyStripChar (pyStripChar (pyStrip rawLine) '"') sqc) ','
        if line ≠ [] ∧ List.isPrefixOf ['#'] line = false then some (splitPkgName line)
        else none)

/-- BaseDetector._extract_dependencies: the requirements.txt entries followed
by the pyproject.toml entries; no deduplication happens anywhere. -/
def extractDependencies (reqLines : Option (List (List Char)))
    (pyprojectContent : Option (List Char)) : List (List Char) :=
  (match reqLines with | none => [] | some ls => reqDeps ls) ++
  pyprojectDeps pyprojectContent

/-- requirements.txt of the C8 scenario: the single line "requests". -/
def reqScenario : List (List Char) := [ ("requests").data ]

/-- pyproject.toml content of the C8 scenario, declaring requests>=2.0. -/
def pyprojectScenario : List Char :=
  ("dependencies = [\n    \"requests>=2.0\",\n]").data

/-!
## LLM response parsing (mcpify/core/semantic/llm_client.py and
mcpify/detect/camel.py)

The json stdlib module is an external collaborator; json.loads is modelled by
a recursive-descent reader of the JSON grammar (numerals valued exactly as
rationals; unicode and control escapes outside the model make the parse fail,
as unsupported input).
-/

/-- A JSON value as Python's json module produces it. -/
inductive Json where
  | null
  | boolean (b : Bool)
  | num (q : ℚ)
  | str (s : String)
  | arr (elems : List Json)
  | obj (fields : List (String × Json))

/-- JSON whitespace skipping. -/
def jsonWs (l : List Char) : List Char :=
  l.dropWhile (fun c => c == ' ' || c == '\t' || c == '\n' || c == '\r')

/-- The remainder of a JSON string literal after the opening quote, with the
basic escapes. -/
def jsonStrRest (fuel : Nat) (l : List Char) (acc : List Char) :
    Option (String × List Char) :=
  match fuel, l with
  | 0, _ => none
  | _, [] => none
  | fuel + 1, c :: rest =>
    if c == '"' then some (String.mk acc.reverse, rest)
    else if c == '\\' then
      match rest with
      | [] => none
      | e :: rest2 =>
        let d : Option Char :=
          if e == '"' then some '"'
          else if e == '\\' then some '\\'
          else if e == '/' then some '/'
          else if e == 'n' then some '\n'
          else if e == 't' then some '\t'
          else if e == 'r' then some '\r'
          else none
        match d with
        | some ch => jsonStrRest fuel rest2 (ch :: acc)
        | none => none
    else jsonStrRest fuel rest (c :: acc)

/-- The numeric value of a digit run. -/
def digitsVal (ds : List Char) : Nat :=
  ds.foldl (fun acc c => acc * 10 + (c.toNat - ('0').toNat)) 0

/-- The exponent tail of a JSON numeral. -/
def jsonExp (v : ℚ) (r : List Char) : Option (ℚ × List Char) :=
  let st : Bool × List Char :=
    match r with
    | '+' :: rest => (false, rest)
    | '-' :: rest => (true, rest)
    | _ => (false, r)
  let es := st.2.takeWhile Char.isDigit
  if es.isEmpty then none
  else
    let e := digitsVal es
    some (if st.1 then v / ((10 : ℚ) ^ e) else v * ((10 : ℚ) ^ e), st.2.drop es.length)

/-- A JSON numeral: optional minus, digits, optional fraction and exponent,
valued exactly as a rational. -/
def jsonNum (l : List Char) : Option (ℚ × List Char) :=
  let st : Bool × List Char :=
    match l with
    | '-' :: rest => (true, rest)
    | _ => (false, l)
  let ds := st.2.takeWhile Char.isDigit
  if ds.isEmpty then none
  else
    let l2 := st.2.drop ds.length
    let intPart : ℚ := (digitsVal ds : ℚ)
    let fracStep : Option (ℚ × List Char) :=
      match l2 with
      | '.' :: r =>
        let fs := r.takeWhile Char.isDigit
        if fs.isEmpty then none
        else some (intPart + (digitsVal fs : ℚ) / ((10 : ℚ) ^ fs.length), r.drop fs.length)
      | _ => some (intPart, l2)
    match fracStep with
    | none => none
    | some (v1, l3) =>
      let expStep : Option (ℚ × List Char) :=
        match l3 with
        | 'e' :: r => jsonExp v1 r
        | 'E' :: r => jsonExp v1 r
        | _ => some (v1, l3)
      match expStep with
      | none => none
      | some (v2, l4) => some (if st.1 then -v2 else v2, l4)

mutual

/-- One JSON value. -/
def parseJsonValue (fuel : Nat) (l : List Char) : Option (Json × List Char) :=
  match fuel with
  | 0 => none
  | fuel + 1 =>
    match jsonWs l with
    | [] => none
    | c :: rest =>
      if c == '"' then
        (jsonStrRest (rest.length + 1) rest []).map (fun sr => (.str sr.1, sr.2))
      else if c == '[' then
        match jsonWs rest with
        | ']' :: r2 => some (.arr [], r2)
        | r2 => (parseJsonElems fuel r2).map (fun er => (.arr er.1, er.2))
      else if c == '\x7b' then
        match jsonWs rest with
        | '\x7d' :: r2 => some (.obj [], r2)
        | r2 => (parseJsonMembers fuel r2).map (fun mr => (.obj mr.1, mr.2))
      else if List.isPrefixOf ("true").data (c :: rest) then
        some (.boolean true, (c :: rest).drop 4)
      else if List.isPrefixOf ("false").data (c :: rest) then
        some (.boolean false, (c :: rest).drop 5)
      else if List.isPrefixOf ("null").data (c :: rest) then
        some (.null, (c :: rest).drop 4)
      else (jsonNum (c :: rest)).map (fun nr => (.num nr.1, nr.2))

/-- The comma-separated elements of a nonempty JSON array, up to the
closing bracket. -/
def parseJsonElems (fuel : Nat) (l : List Char) : Option (List Json × List Char) :=
  match fuel with
  | 0 => none
  | fuel + 1 =>
    match parseJsonValue fuel l with
    | none => none
    | some (v, r) =>
      match jsonWs r with
      | ',' :: r2 => (parseJsonElems fuel r2).map (fun er => (v :: er.1, er.2))
      | ']' :: r2 => some ([v], r2)
      | _ => none

/-- The comma-separated members of a nonempty JSON object, up to the
closing brace. -/
def parseJsonMembers (fuel : Nat) (l : List Char) :
    Option (List (String × Json) × List Char) :=
  match fuel with
  | 0 => none
  | fuel + 1 =>
    match jsonWs l with
    | '"' :: r =>
      match jsonStrRest (r.length + 1) r [] with
      | none => none
      | some (k, r2) =>
        match jsonWs r2 with
        | ':' :: r3 =>
          match parseJsonValue fuel r3 with
          | none => none
          | some (v, r4) =>
            match jsonWs r4 with
            | ',' :: r5 => (parseJsonMembers fuel r5).map (fun mr => ((k, v) :: mr.1, mr.2))
            | '\x7d' :: r5 => some ([(k, v)], r5)
            | _ => none
        | _ => none
    | _ => none

end

/-- Model of json.loads: one JSON value followed only by whitespace; None
models json.JSONDecodeError. -/
def jsonLoads (l : List Char) : Option Json :=
  match parseJsonValue (2 * l.length + 2) l with
  | some (v, rest) => if jsonWs rest = [] then some v else none
  | none => none

/-- Python dict key-presence test on a parsed JSON object. -/
def jhasKey (fields : List (String × Json)) (k : String) : Bool :=
  fields.any (fun kv => kv.1 == k)

/-- Python dict lookup on a parsed JSON object; duplicate keys resolve to the
last occurrence, as json.loads builds the dict. -/
def jlookup (fields : List (String × Json)) (k : String) : Option Json :=
  (fields.reverse.find? (fun kv => kv.1 == k)).map (fun kv => kv.2)

/-- The per-parameter check of LLMClient._validate_tool_spec: the four keys
are present and the type value is one of the allowed type strings.  A
non-dict parameter never validates (in Python the membership tests fail or
raise, and a raise discards the batch through the enclosing except). -/
def validateToolParam (p : Json) : Bool :=
  match p with
  | .obj fields =>
    jhasKey fields "name" && jhasKey fields "type" &&
    jhasKey fields "description" && jhasKey fields "required" &&
    (match jlookup fields "type" with
     | some (.str t) =>
       t == "string" || t == "number" || t == "boolean" || t == "array" || t == "object"
     | _ => false)
  | _ => false

/-- LLMClient._validate_tool_spec. -/
def validateToolSpec (j : Json) : Bool :=
  match j with
  | .obj fields =>
    jhasKey fields "function_name" && jhasKey fields "tool_name" &&
    jhasKey fields "description" && jhasKey fields "parameters" &&
    (match jlookup fields "parameters" with
     | some (.arr ps) => ps.all validateToolParam
     | _ => false)
  | _ => false

/-- Python str.find for one character: index of the first occurrence (None
models -1). -/
def pyFindChar (l : List Char) (c : Char) : Option Nat :=
  l.findIdx? (· == c)

/-- Python str.rfind for one character: index of the last occurrence (None
models -1). -/
def pyRFindChar (l : List Char) (c : Char) : Option Nat :=
  match l.reverse.findIdx? (· == c) with
  | some i => some (l.length - 1 - i)
  | none => none

/-- LLMClient._parse_analysis_response: strip, locate the first opening and
the last closing bracket (returning [] when either is missing), json.loads
the slice (an error yields []), and keep the elements that validate.  A
parse result that is not a list cannot arise from a slice delimited by
brackets; it is mapped to [], the value the Python iteration paths produce. -/
def parseAnalysisResponse (response : List Char) : List Json :=
  let r := pyStrip response
  match pyFindChar r '[', pyRFindChar r ']' with
  | some s, some e =>
    let jsonStr := (r.drop s).take (e + 1 - s)
    match jsonLoads jsonStr with
    | some (.arr tools) => tools.filter validateToolSpec
    | some _ => []
    | none => []
  | _, _ => []

/-- Python truthiness of a JSON value. -/
def jsonTruthy : Json → Bool
  | .null => false
  | .boolean b => b
  | .num q => !(decide (q = 0))
  | .str s => s != ""
  | .arr l => !l.isEmpty
  | .obj f => !f.isEmpty

/-- The default-filling step of camel's validation: set tool["args"] = [] and
tool["parameters"] = [] when the keys are missing. -/
def camelWithDefaults (fields : List (String × Json)) : Json :=
  let f1 := if jhasKey fields "args" then fields else fields ++ [("args", Json.arr [])]
  let f2 := if jhasKey f1 "parameters" then f1 else f1 ++ [("parameters", Json.arr [])]
  .obj f2

/-- CamelDetector._agent_detect_tools from the agent's response content
onward: strip, slice between the first opening and last closing bracket when
both exist (otherwise keep the whole content), json.loads (an error yields
[]), wrap a truthy non-list result in a singleton list, then keep the dict
elements carrying name and description, filling missing args/parameters. -/
def camelAgentDetectTools (content : List Char) : List Json :=
  let c := pyStrip content
  let jsonContent :=
    match pyFindChar c '[', pyRFindChar c ']' with
    | some s, some e => (c.drop s).take (e + 1 - s)
    | _, _ => c
  match jsonLoads jsonContent with
  | none => []
  | some v =>
    let toolsData : List Json :=
      match v with
      | .arr l => l
      | other => if jsonTruthy other then [other] else []
    toolsData.filterMap (fun t =>
      match t with
      | .obj fields =>
        if jhasKey fields "name" && jhasKey fields "description" then
          some (camelWithDefaults fields)
        else none
      | _ => none)

/-- The C3 counterexample response: a bare JSON object with name and
description and no bracket anywhere. -/
def bareObjectResponse : List Char :=
  ("\x7b\"name\":\"a\",\"description\":\"b\"\x7d").data

/-!
## Web route extraction (mcpify/detect/openai.py, _detect_web_tools and
_process_route)

The two decorator regexes and the body/query regexes are modelled by
hand-rolled scanners with the same leftmost, non-overlapping findall
semantics; the lazy `.*?)` bridge backtracks over later closing parens on
the same line exactly as the regex engine does.
-/

/-- The regex word class (ASCII model of \w). -/
def isWordChar (c : Char) : Bool := c.isAlphanum || c == '_'

/-- Match `def\s+(\w+)` starting exactly at this position. -/
def matchDefOnly (l : List Char) : Option (List Char × List Char) :=
  match dropLit l "def" with
  | none => none
  | some l2 =>
    match l2 with
    | c :: rest =>
      if c.isWhitespace then
        let l3 := rest.dropWhile Char.isWhitespace
        let w := l3.takeWhile isWordChar
        if w.isEmpty then none else some (w, l3.drop w.length)
      else none
    | [] => none

/-- Match `\s*def\s+(\w+)` (the Flask tail after the closing paren). -/
def matchDefName (l : List Char) : Option (List Char × List Char) :=
  matchDefOnly (l.dropWhile Char.isWhitespace)

/-- Match `\s*(?:async\s+)?def\s+(\w+)` (the FastAPI tail). -/
def matchAsyncDefName (l : List Char) : Option (List Char × List Char) :=
  let l1 := l.dropWhile Char.isWhitespace
  let viaAsync : Option (List Char × List Char) :=
    match dropLit l1 "async" with
    | some (c :: rest) =>
      if c.isWhitespace then matchDefOnly (rest.dropWhile Char.isWhitespace) else none
    | _ => none
  match viaAsync with
  | some r => some r
  | none => matchDefOnly l1

/-- The lazy `.*?\)` bridge: scan the current line for a closing paren whose
continuation matches k, trying later parens when the continuation fails
(regex backtracking); `.` does not cross a newline. -/
def lazyParen (k : List Char → Option (List Char × List Char)) :
    List Char → Option (List Char × List Char)
  | [] => none
  | c :: rest =>
    if c == '\n' then none
    else if c == ')' then
      match k rest with
      | some r => some r
      | none => lazyParen k rest
    else lazyParen k rest

/-- Match a quoted route path: one quote of either kind, a nonempty run of
non-quote characters, one quote of either kind. -/
def matchQuoted (l : List Char) : Option (List Char × List Char) :=
  match l with
  | c :: rest =>
    if c == '"' || c == sqc then
      let body := rest.takeWhile (fun d => !(d == '"' || d == sqc))
      if body.isEmpty then none
      else
        match rest.drop body.length with
        | d :: rest2 => if d == '"' || d == sqc then some (body, rest2) else none
        | [] => none
    else none
  | [] => none

/-- Match the Flask route pattern at this position: the literal @app.route(,
a quoted path, then the paren-def tail; yields (route, name, rest). -/
def matchFlaskAt (l : List Char) : Option (List Char × List Char × List Char) :=
  match dropLit l "@app.route(" with
  | none => none
  | some l1 =>
    match matchQuoted l1 with
    | none => none
    | some (route, l2) =>
      match lazyParen matchDefName l2 with
      | none => none
      | some (fname, l3) => some (route, fname, l3)

/-- The findall scan for Flask routes: leftmost matches, continuing after
each match. -/
def flaskRoutesAux (fuel : Nat) (l : List Char) : List (List Char × List Char) :=
  match fuel with
  | 0 => []
  | fuel + 1 =>
    match l with
    | [] => []
    | _ :: rest =>
      match matchFlaskAt l with
      | some (route, fname, l2) => (route, fname) :: flaskRoutesAux fuel l2
      | none => flaskRoutesAux fuel rest

/-- re.findall of the Flask route decorator pattern over the file content. -/
def flaskRoutes (content : List Char) : List (List Char × List Char) :=
  flaskRoutesAux (content.length + 1) content

/-- The alternation of the FastAPI decorator pattern, in regex order. -/
def fastapiMethods : List String := ["get", "post", "put", "delete", "patch"]

/-- Match the FastAPI route pattern at this position; yields
(method, route, name, rest). -/
def matchFastapiAt (l : List Char) :
    Option (List Char × List Char × List Char × List Char) :=
  match dropLit l "@app." with
  | none => none
  | some l1 =>
    match fastapiMethods.findSome? (fun m =>
      match dropLit l1 m with
      | some ('(' :: l2) => some (m.data, l2)
      | _ => none) with
    | none => none
    | some (m, l2) =>
      match matchQuoted l2 with
      | none => none
      | some (route, l3) =>
        match lazyParen matchAsyncDefName l3 with
        | none => none
        | some (fname, l4) => some (m, route, fname, l4)

/-- The findall scan for FastAPI routes. -/
def fastapiRoutesAux (fuel : Nat) (l : List Char) :
    List (List Char × List Char × List Char) :=
  match fuel with
  | 0 => []
  | fuel + 1 =>
    match l with
    | [] => []
    | _ :: rest =>
      match matchFastapiAt l with
      | some (m, route, fname, l2) => (m, route, fname) :: fastapiRoutesAux fuel l2
      | none => fastapiRoutesAux fuel rest

/-- re.findall of the FastAPI route decorator pattern over the file content. -/
def fastapiRoutes (content : List Char) : List (List Char × List Char × List Char) :=
  fastapiRoutesAux (content.length + 1) content

/-- The findall of `<(?:(\w+):)?(\w+)>` over a route: (type, name) pairs,
the type empty when the typed form is absent. -/
def angleParamsAux (fuel : Nat) (l : List Char) : List (List Char × List Char) :=
  match fuel with
  | 0 => []
  | fuel + 1 =>
    match l with
    | [] => []
    | c :: rest =>
      if c == '<' then
        let w1 := rest.takeWhile isWordChar
        if w1.isEmpty then angleParamsAux fuel rest
        else
          match rest.drop w1.length with
          | ':' :: r2 =>
            let w2 := r2.takeWhile isWordChar
            if w2.isEmpty then angleParamsAux fuel rest
            else
              match r2.drop w2.length with
              | '>' :: r3 => (w1, w2) :: angleParamsAux fuel r3
              | _ => angleParamsAux fuel rest
          | '>' :: r2 => (([] : List Char), w1) :: angleParamsAux fuel r2
          | _ => angleParamsAux fuel rest
      else angleParamsAux fuel rest

/-- The findall of brace-delimited `(\w+)` placeholders over a route (the
FastAPI path-parameter pattern). -/
def braceParamsAux (fuel : Nat) (l : List Char) : List (List Char) :=
  match fuel with
  | 0 => []
  | fuel + 1 =>
    match l with
    | [] => []
    | c :: rest =>
      if c == '\x7b' then
        let w := rest.takeWhile isWordChar
        if w.isEmpty then braceParamsAux fuel rest
        else
          match rest.drop w.length with
          | '\x7d' :: r2 => w :: braceParamsAux fuel r2
          | _ => braceParamsAux fuel rest
      else braceParamsAux fuel rest

/-- Python str.replace over character lists (every occurrence, left to
right; the replace targets of _process_route are always nonempty). -/
def pyReplace (fuel : Nat) (l old new : List Char) : List Char :=
  match fuel with
  | 0 => l
  | fuel + 1 =>
    match l with
    | [] => []
    | c :: rest =>
      if !old.isEmpty && List.isPrefixOf old l then
        new ++ pyReplace fuel (l.drop old.length) old new
      else c :: pyReplace fuel rest old new

/-- The Flask-to-JSON-schema type table of _process_route. -/
def flaskTypeToJson (t : List Char) : String :=
  if t == ("int").data then "integer"
  else if t == ("float").data then "number"
  else if t == ("string").data then "string"
  else if t == ("path").data then "string"
  else if t == ("uuid").data then "string"
  else "string"

/-- The def-or-async-def alternative of the body-capture lookahead
`(?=(?:async\s+)?def\s+\w+|@app\.|$)`. -/
def lookaheadDef (l : List Char) : Bool :=
  match (match dropLit l "async" with
         | some (c :: rest) =>
           if c.isWhitespace then matchDefOnly (rest.dropWhile Char.isWhitespace) else none
         | _ => none) with
  | some _ => true
  | none => (matchDefOnly l).isSome

/-- The full lookahead: the next function, the next decorator, or the end of
the content. -/
def bodyStop (l : List Char) : Bool :=
  l.isEmpty || lookaheadDef l || List.isPrefixOf ("@app.").data l

/-- The lazy `(.*?)` body capture with DOTALL: the shortest prefix whose
continuation satisfies the lookahead. -/
def lazyCapture (fuel : Nat) (l : List Char) (acc : List Char) : List Char :=
  match fuel with
  | 0 => acc.reverse
  | fuel + 1 =>
    if bodyStop l then acc.reverse
    else
      match l with
      | [] => acc.reverse
      | c :: rest => lazyCapture fuel rest (c :: acc)

/-- Match the function header `def\s+fname\s*\([^)]*\):` at this position,
returning the remainder after the colon. -/
def matchFuncHeaderAt (l : List Char) (fname : List Char) : Option (List Char) :=
  match dropLit l "def" with
  | none => none
  | some l1 =>
    match l1 with
    | c :: rest =>
      if c.isWhitespace then
        let l2 := rest.dropWhile Char.isWhitespace
        if List.isPrefixOf fname l2 then
          let l3 := (l2.drop fname.length).dropWhile Char.isWhitespace
          match l3 with
          | '(' :: r =>
            let ps := r.takeWhile (· ≠ ')')
            match r.drop ps.length with
            | ')' :: ':' :: r2 => some r2
            | _ => none
          | _ => none
        else none
      else none
    | [] => none

/-- The re.search scan of the function-body regex: the body captured at the
first matching header position, if any. -/
def extractFuncBodyAux (fuel : Nat) (l : List Char) (fname : List Char) :
    Option (List Char) :=
  match fuel with
  | 0 => none
  | fuel + 1 =>
    match l with
    | [] => none
    | _ :: rest =>
      match matchFuncHeaderAt l fname with
      | some afterHeader => some (lazyCapture (afterHeader.length + 1) afterHeader [])
      | none => extractFuncBodyAux fuel rest fname

/-- The function-body extraction of _process_route. -/
def extractFuncBody (content : List Char) (fname : List Char) : Option (List Char) :=
  extractFuncBodyAux (content.length + 1) content fname

/-- The findall of the Flask query-parameter pattern
`request\.args\.get\(["...](\w+)["...]` over the body. -/
def reqArgsGetAux (fuel : Nat) (l : List Char) : List (List Char) :=
  match fuel with
  | 0 => []
  | fuel + 1 =>
    match l with
    | [] => []
    | _ :: rest =>
      match (match dropLit l "request.args.get(" with
             | some (q :: r) =>
               if q == '"' || q == sqc then
                 let w := r.takeWhile isWordChar
                 if w.isEmpty then none
                 else
                   match r.drop w.length with
                   | q2 :: r2 => if q2 == '"' || q2 == sqc then some (w, r2) else none
                   | [] => none
               else none
             | _ => none) with
      | some (w, r2) => w :: reqArgsGetAux fuel r2
      | none => reqArgsGetAux fuel rest

/-- Match the FastAPI query-parameter pattern
`(\w+):\s*Optional\[\w+\]\s*=\s*Query\([^)]*\)` at this position. -/
def matchFastapiQueryAt (l : List Char) : Option (List Char × List Char) :=
  let w := l.takeWhile isWordChar
  if w.isEmpty then none
  else
    match l.drop w.length with
    | ':' :: r1 =>
      let r2 := r1.dropWhile Char.isWhitespace
      match dropLit r2 "Optional[" with
      | none => none
      | some r3 =>
        let t := r3.takeWhile isWordChar
        if t.isEmpty then none
        else
          match r3.drop t.length with
          | ']' :: r4 =>
            match r4.dropWhile Char.isWhitespace with
            | '=' :: r6 =>
              let r7 := r6.dropWhile Char.isWhitespace
              match dropLit r7 "Query(" with
              | none => none
              | some r8 =>
                let ps := r8.takeWhile (· ≠ ')')
                match r8.drop ps.length with
                | ')' :: r9 => some (w, r9)
                | _ => none
            | _ => none
          | _ => none
    | _ => none

/-- The findall of the FastAPI query-parameter pattern over the body. -/
def fastapiQueryAux (fuel : Nat) (l : List Char) : List (List Char) :=
  match fuel with
  | 0 => []
  | fuel + 1 =>
    match l with
    | [] => []
    | _ :: rest =>
      match matchFastapiQueryAt l with
      | some (w, r2) => w :: fastapiQueryAux fuel r2
      | none => fastapiQueryAux fuel rest

/-- Python str.upper, character-wise. -/
def pyUpper (s : String) : String := String.mk (s.data.map Char.toUpper)

/-- Python "&".join. -/
def joinAmp : List String → String
  | [] => ""
  | [s] => s
  | s :: rest => s ++ "&" ++ joinAmp rest

/-- Python substring containment. -/
def hasSubstrAux : List Char → List Char → Bool
  | [], sub => sub.isEmpty
  | c :: rest, sub => List.isPrefixOf sub (c :: rest) || hasSubstrAux rest sub

/-- Python `sub in s`. -/
def containsSubstr (s sub : String) : Bool := hasSubstrAux s.data sub.data

/-- OpenaiDetector._process_route: collect <type:name> route parameters
(replacing them in the processed route; the type name is re-bound to
"string" before the replace, so an untyped `<name>` never matches its
replace target and survives in the route, as in the source), add
brace-style path parameters of the original route as integers, add query
parameters found in the function body, then build the args list: the
processed route, one placeholder per required non-query parameter, and a
query string folded into the first arg when query parameters exist. -/
def processRoute (route : List Char) (funcName : List Char) (content : List Char)
    (method : String) : ToolSpec :=
  let routeParams := angleParamsAux (route.length + 1) route
  let step1 := routeParams.foldl
    (fun (st : List ParamDict × List Char) tp =>
      let ptype := if tp.1.isEmpty then ("string").data else tp.1
      let pname := tp.2
      let jsonType := flaskTypeToJson ptype
      let params := st.1 ++
        [ { name := String.mk pname, type := jsonType,
            description := "The " ++ String.mk pname ++ " parameter",
            required := none } ]
      let target := ('<' :: ptype) ++ (':' :: pname) ++ ['>']
      let processed := pyReplace (st.2.length + 1) st.2 target (braced (String.mk pname)).data
      (params, processed))
    (([] : List ParamDict), route)
  let parameters1 := step1.1
  let processedRoute := step1.2
  let fastapiParams := braceParamsAux (route.length + 1) route
  let parameters2 := fastapiParams.foldl
    (fun (ps : List ParamDict) pname =>
      if ps.any (fun p => p.name == String.mk pname) then ps
      else ps ++
        [ { name := String.mk pname, type := "integer",
            description := "The " ++ String.mk pname ++ " parameter",
            required := none } ])
    parameters1
  let parameters3 :=
    match extractFuncBody content funcName with
    | none => parameters2
    | some body =>
      let queryParams := reqArgsGetAux (body.length + 1) body ++
        fastapiQueryAux (body.length + 1) body
      queryParams.foldl
        (fun (ps : List ParamDict) pname =>
          if ps.any (fun p => p.name == String.mk pname) then ps
          else ps ++
            [ { name := String.mk pname, type := "string",
                description := "Query parameter " ++ String.mk pname,
                required := some false } ])
        parameters2
  let args1 := parameters3.foldl
    (fun (ar : List String) p =>
      if p.required.getD true && !(containsSubstr p.description "Query parameter") then
        ar ++ [braced p.name]
      else ar)
    [String.mk processedRoute]
  let queryParts := parameters3.foldl
    (fun (qs : List String) p =>
      if containsSubstr p.description "Query parameter" then
        qs ++ [p.name ++ "=" ++ braced p.name]
      else qs)
    ([] : List String)
  let args2 :=
    if queryParts.isEmpty then args1
    else
      match args1 with
      | [] => args1
      | _ :: restArgs => (String.mk processedRoute ++ "?" ++ joinAmp queryParts) :: restArgs
  { name := String.mk funcName,
    description := method ++ " " ++ String.mk route ++ " endpoint",
    args := args2,
    parameters := parameters3 }

/-- OpenaiDetector._detect_web_tools restricted to one source file's content:
all Flask routes (method GET) followed by all FastAPI routes (their method
upper-cased). -/
def detectWebToolsContent (content : List Char) : List ToolSpec :=
  (flaskRoutes content).map (fun rf => processRoute rf.1 rf.2 content "GET") ++
  (fastapiRoutes content).map (fun mrf =>
    processRoute mrf.2.1 mrf.2.2 content (pyUpper (String.mk mrf.1)))

/-- The C6 scenario source file: a Flask route decorator with an int-typed
path parameter on def get_user(id). -/
def webScenario : List Char :=
  ("@app.route(").data ++ [sqc] ++ ("/users/<int:id>").data ++ [sqc] ++
  (")\ndef get_user(id):\n    return id\n").data

theorem addDetected_invariant (ts : List ToolSpec) :
    ∀ acc seen,
      (∀ n, n ∈ seen ↔ n ∈ acc.map ToolSpec.name) →
      (acc.map ToolSpec.name).Nodup →
      (∀ n, n ∈ (addDetected (acc, seen) ts).2 ↔
          n ∈ (addDetected (acc, seen) ts).1.map ToolSpec.name) ∧
      ((addDetected (acc, seen) ts).1.map ToolSpec.name).Nodup ∧
      (∀ n : String, (addDetected (acc, seen) ts).1.find? (fun t => t.name == n)
          = (acc ++ ts).find? (fun t => t.name == n)) := by
  induction ts with
  | nil =>
    intro acc seen hseen hnodup
    refine ⟨hseen, hnodup, ?_⟩
    intro n
    simp [addDetected]
  | cons t ts ih =>
    intro acc seen hseen hnodup
    by_cases hmem : t.name ∈ seen
    · have hstep : addDetected (acc, seen) (t :: ts) = addDetected (acc, seen) ts := by
        simp [addDetected, hmem]
      rw [hstep]
      obtain ⟨h1, h2, h3⟩ := ih acc seen hseen hnodup
      refine ⟨h1, h2, ?_⟩
      intro n
      rw [h3 n]
      by_cases hn : t.name = n
      · subst hn
        have : t.name ∈ acc.map ToolSpec.name := (hseen t.name).mp hmem
        obtain ⟨a, ha, hname⟩ := List.mem_map.mp this
        have hsome : (acc.find? (fun x => x.name == t.name)).isSome := by
          rw [List.find?_isSome]
          exact ⟨a, ha, by simp [hname]⟩
        obtain ⟨b, hb⟩ := Option.isSome_iff_exists.mp hsome
        simp [List.find?_append, hb]
      · simp only [List.find?_append]
        congr 1
        rw [List.find?_cons_of_neg]
        simp [hn]
    · have hstep : addDetected (acc, seen) (t :: ts)
          = addDetected (acc ++ [t], t.name :: seen) ts := by
        simp [addDetected, hmem]
      rw [hstep]
      have hnotacc : t.name ∉ acc.map ToolSpec.name := fun h => hmem ((hseen t.name).mpr h)
      have hseen' : ∀ n, n ∈ t.name :: seen ↔ n ∈ (acc ++ [t]).map ToolSpec.name := by
        intro n
        simp only [List.mem_cons, List.map_append, List.mem_append, List.map_cons,
          List.map_nil, List.mem_singleton]
        constructor
        · rintro (h | h)
          · exact Or.inr (Or.inl h)
          · exact Or.inl ((hseen n).mp h)
        · rintro (h | h | h)
          · exact Or.inr ((hseen n).mpr h)
          · exact Or.inl h
          · exact absurd h (List.not_mem_nil n)
      have hnodup' : ((acc ++ [t]).map ToolSpec.name).Nodup := by
        rw [List.map_append]
        rw [List.nodup_append]
        refine ⟨hnodup, by simp, ?_⟩
        intro x hx
        simp only [List.map_cons, List.map_nil, List.mem_singleton]
        intro hxx
        subst hxx
        exact hnotacc hx
      obtain ⟨h1, h2, h3⟩ := ih (acc ++ [t]) (t.name :: seen) hseen' hnodup'
      refine ⟨h1, h2, ?_⟩
      intro n
      rw [h3 n]
      congr 1
      simp

theorem compositeFold_invariant (outputs : List (Option (List ToolSpec))) :
    ∀ acc seen,
      (∀ n, n ∈ seen ↔ n ∈ acc.map ToolSpec.name) →
      (acc.map ToolSpec.name).Nodup →
      (((outputs.foldl
          (fun st o => match o with | none => st | some ts => addDetected st ts)
          (acc, seen)).1.map ToolSpec.name).Nodup) ∧
      (∀ n : String, (outputs.foldl
          (fun st o => match o with | none => st | some ts => addDetected st ts)
          (acc, seen)).1.find? (fun t => t.name == n)
          = (acc ++ flattenRuns outputs).find? (fun t => t.name == n)) := by
  induction outputs with
  | nil =>
    intro acc seen hseen hnodup
    refine ⟨hnodup, ?_⟩
    intro n
    simp [flattenRuns]
  | cons o outputs ih =>
    intro acc seen hseen hnodup
    match o with
    | none =>
      simp only [List.foldl_cons]
      obtain ⟨h1, h2⟩ := ih acc seen hseen hnodup
      refine ⟨h1, ?_⟩
      intro n
      rw [h2 n]
      simp [flattenRuns]
    | some ts =>
      simp only [List.foldl_cons]
      obtain ⟨hs1, hs2, hs3⟩ := addDetected_invariant ts acc seen hseen hnodup
      obtain ⟨h1, h2⟩ := ih (addDetected (acc, seen) ts).1 (addDetected (acc, seen) ts).2 hs1 hs2
      refine ⟨h1, ?_⟩
      intro n
      rw [h2 n]
      simp only [List.find?_append, hs3 n]
      have : flattenRuns (some ts :: outputs) = ts ++ flattenRuns outputs := by
        simp [flattenRuns]
      rw [this]
      simp [List.find?_append, Option.or_assoc]

/-- C1: composite detection over any ordered list of strategies emits pairwise
distinct tool names; for every name the surviving record is the first one in
the concatenated strategy outputs (first-writer-wins); in the concrete
two-strategy scenario where A and B both produce "foo" with different
descriptions, the merged result's "foo" is A's record. -/
theorem composite_dedup_by_name_first_writer_wins :
    (∀ outputs : List (Option (List ToolSpec)),
        ((compositeDetectTools outputs).map ToolSpec.name).Nodup) ∧
    (∀ (outputs : List (Option (List ToolSpec))) (n : String),
        (compositeDetectTools outputs).find? (fun t => t.name == n)
          = (flattenRuns outputs).find? (fun t => t.name == n)) ∧
    compositeDetectTools [some [toolFooA], some [toolFooB]] = [toolFooA] := by
  refine ⟨?_, ?_, ?_⟩
  · intro outputs
    exact (compositeFold_invariant outputs [] [] (by simp) (by simp)).1
  · intro outputs n
    have h := (compositeFold_invariant outputs [] [] (by simp) (by simp)).2 n
    simpa [compositeDetectTools] using h
  · rfl

/-!
## Function inventory theorems (C2, C10)
-/

theorem mem_findNodesInList_of_mem {x c : PyNode} {ty : String} :
    ∀ l : List PyNode, c ∈ l → x ∈ findNodesByType c ty → x ∈ findNodesInList l ty := by
  intro l hc hx
  induction l with
  | nil => cases hc
  | cons d ds ih =>
    rw [findNodesInList]
    rcases List.mem_cons.mp hc with h | h
    · subst h
      exact List.mem_append_left _ hx
    · exact List.mem_append_right _ (ih h)

mutual

theorem findNodesByType_trans (root : PyNode) (ty1 ty2 : String) (c x : PyNode)
    (hc : c ∈ findNodesByType root ty1) (hx : x ∈ findNodesByType c ty2) :
    x ∈ findNodesByType root ty2 := by
  match root with
  | .mk t nm pl cs =>
    rw [findNodesByType] at hc
    rcases List.mem_append.mp hc with h | h
    · by_cases ht : (t == ty1)
      · rw [if_pos ht] at h
        rcases List.mem_singleton.mp h with rfl
        exact hx
      · rw [if_neg ht] at h
        cases h
    · rw [findNodesByType]
      exact List.mem_append_right _ (findNodesInList_trans cs ty1 ty2 c x h hx)

theorem findNodesInList_trans (l : List PyNode) (ty1 ty2 : String) (c x : PyNode)
    (hc : c ∈ findNodesInList l ty1) (hx : x ∈ findNodesByType c ty2) :
    x ∈ findNodesInList l ty2 := by
  match l with
  | [] =>
    rw [findNodesInList] at hc
    cases hc
  | d :: ds =>
    rw [findNodesInList] at hc
    rw [findNodesInList]
    rcases List.mem_append.mp hc with h | h
    · exact List.mem_append_left _ (findNodesByType_trans d ty1 ty2 c x h hx)
    · exact List.mem_append_right _ (findNodesInList_trans ds ty1 ty2 c x h hx)

end

theorem extractFunctionInfo_name_filter {node : PyNode} {fp : String}
    {cn : Option String} {im : Bool} {fi : FunctionInfo}
    (h : extractFunctionInfo node fp cn im = some fi) :
    (pyStartsWith fi.name "_" && !(pyStartsWith fi.name "__")) = false := by
  cases hp : node.pname with
  | none =>
    simp only [extractFunctionInfo, hp] at h
    cases h
  | some fn =>
    simp only [extractFunctionInfo, hp] at h
    split at h
    · cases h
    · next hcond =>
      cases h
      simpa using hcond

theorem extractFunctionInfo_of_pname {node : PyNode} {fp : String}
    {cn : Option String} {im : Bool} {nm : String}
    (hp : node.pname = some nm)
    (hcond : (pyStartsWith nm "_" && !(pyStartsWith nm "__")) = false) :
    extractFunctionInfo node fp cn im = some
      { name := nm
        file_path := fp
        line_number := node.payload.startRow + 1
        parameters := node.payload.params.filter
          (fun p => !(p.name == "self" || p.name == "cls"))
        return_type := node.payload.returnType
        docstring := node.payload.docstring
        is_async := node.payload.isAsync
        is_method := im
        class_name := cn
        decorators := node.payload.decorators } := by
  simp only [extractFunctionInfo, hp]
  rw [if_neg (by simp [hcond])]

theorem mem_parseFile_name_cond {fp : String} {root : PyNode} {fi : FunctionInfo}
    (h : fi ∈ parseFile fp root) :
    (pyStartsWith fi.name "_" && !(pyStartsWith fi.name "__")) = false := by
  unfold parseFile at h
  rcases List.mem_append.mp h with h | h
  · obtain ⟨n, _, hn⟩ := List.mem_filterMap.mp h
    exact extractFunctionInfo_name_filter hn
  · obtain ⟨l, hl, hfl⟩ := List.mem_flatten.mp h
    obtain ⟨c, _, rfl⟩ := List.mem_map.mp hl
    obtain ⟨m, _, hm⟩ := List.mem_filterMap.mp hfl
    exact extractFunctionInfo_name_filter hm

/-- C2: parse_file never outputs a record whose name starts with exactly one
underscore (one leading underscore and not a dunder prefix), and every
function_definition node in the tree whose name starts with "__" (such as
__init__) contributes a record with that name to the output. -/
theorem parse_excludes_single_underscore_keeps_dunder :
    (∀ (fp : String) (root : PyNode) (fi : FunctionInfo), fi ∈ parseFile fp root →
      ¬(pyStartsWith fi.name "_" = true ∧ pyStartsWith fi.name "__" = false)) ∧
    (∀ (fp : String) (root n : PyNode) (nm : String),
      n ∈ findNodesByType root "function_definition" → n.pname = some nm →
      pyStartsWith nm "__" = true →
      ∃ fi ∈ parseFile fp root, fi.name = nm) := by
  constructor
  · intro fp root fi h
    have hc := mem_parseFile_name_cond h
    rintro ⟨h1, h2⟩
    rw [h1, h2] at hc
    simp at hc
  · intro fp root n nm hmem hp hdunder
    have hcond : (pyStartsWith nm "_" && !(pyStartsWith nm "__")) = false := by
      rw [hdunder]
      simp
    refine ⟨_, List.mem_append_left _ (List.mem_filterMap.mpr
      ⟨n, hmem, extractFunctionInfo_of_pname hp hcond⟩), rfl⟩

/-- C2 witness: on the concrete sample tree, a single-underscore record is
impossible and the __init__ method yields a record. -/
theorem parse_excludes_single_underscore_keeps_dunder_witness :
    (¬(pyStartsWith "run" "_" = true ∧ pyStartsWith "run" "__" = false)) ∧
    (∃ fi ∈ parseFile "sample.py" sampleModule, fi.name = "__init__") :=
  ⟨fun hcontr =>
      parse_excludes_single_underscore_keeps_dunder.1 "sample.py" sampleModule
        sampleRunRecord (by decide) hcontr,
    parse_excludes_single_underscore_keeps_dunder.2 "sample.py" sampleModule
      sampleInitNode "__init__"
      (by simp [sampleModule, sampleClassNode, sampleInitNode, sampleRunNode,
        sampleHelperNode, findNodesByType, findNodesInList])
      rfl (by decide)⟩

/-- C10: for any class_definition node containing a public function_definition
node, parse_file outputs that method twice: once as a plain function record
(class_name None, is_method false) because the top-level function walk also
descends into class bodies, and once as a method record carrying the class
name. -/
theorem parse_duplicates_public_methods :
    ∀ (fp : String) (root c m : PyNode) (nm : String),
      c ∈ findNodesByType root "class_definition" →
      m ∈ findNodesByType c "function_definition" →
      m.pname = some nm →
      pyStartsWith nm "_" = false →
      (∃ fi ∈ parseFile fp root,
        fi.name = nm ∧ fi.class_name = none ∧ fi.is_method = false) ∧
      (∃ fi ∈ parseFile fp root,
        fi.name = nm ∧ fi.class_name = some (c.pname.getD "") ∧ fi.is_method = true) := by
  intro fp root c m nm hc hm hp hpub
  have hcond : (pyStartsWith nm "_" && !(pyStartsWith nm "__")) = false := by
    rw [hpub]
    simp
  have hmroot : m ∈ findNodesByType root "function_definition" :=
    findNodesByType_trans root "class_definition" "function_definition" c m hc hm
  constructor
  · refine ⟨_, List.mem_append_left _ (List.mem_filterMap.mpr
      ⟨m, hmroot, extractFunctionInfo_of_pname hp hcond⟩), rfl, rfl, rfl⟩
  · refine ⟨_, List.mem_append_right _ (List.mem_flatten.mpr
      ⟨_, List.mem_map.mpr ⟨c, hc, rfl⟩,
        List.mem_filterMap.mpr ⟨m, hm, extractFunctionInfo_of_pname hp hcond⟩⟩),
      rfl, rfl, rfl⟩

/-- C10 witness: in the sample tree the public method "run" appears both as a
plain record and as a method record of class Greeter. -/
theorem parse_duplicates_public_methods_witness :
    (∃ fi ∈ parseFile "sample.py" sampleModule,
      fi.name = "run" ∧ fi.class_name = none ∧ fi.is_method = false) ∧
    (∃ fi ∈ parseFile "sample.py" sampleModule,
      fi.name = "run" ∧ fi.class_name = some (sampleClassNode.pname.getD "") ∧
      fi.is_method = true) :=
  parse_duplicates_public_methods "sample.py" sampleModule sampleClassNode
    sampleRunNode "run"
    (by simp [sampleModule, sampleClassNode, sampleInitNode, sampleRunNode,
      sampleHelperNode, findNodesByType, findNodesInList])
    (by simp [sampleClassNode, sampleInitNode, sampleRunNode,
      findNodesByType, findNodesInList])
    rfl (by decide)

/-!
## Wire schema theorems (C5)
-/

theorem toMcpSchema_required_foldl (ps : List MCPToolParameter) :
    ∀ props req, (ps.foldl mcpSchemaStep (props, req)).2
      = req ++ (ps.filter (fun p => p.required)).map (fun p => p.name) := by
  induction ps with
  | nil => intro props req; simp
  | cons p ps ih =>
    intro props req
    by_cases hr : p.required
    · simp only [List.foldl_cons, mcpSchemaStep, if_pos hr]
      rw [ih]
      simp [List.filter_cons, hr]
    · simp only [List.foldl_cons, mcpSchemaStep, if_neg hr]
      rw [ih]
      simp [List.filter_cons, hr]

/-- C5 counterexample: for the tool whose two parameters share the name "x"
(first required, second not), to_mcp_schema's required array is ["x"], so the
name of a required=false parameter does appear in it, contrary to the claim. -/
theorem to_mcp_schema_required_counterexample :
    (toMcpSchema dupNameTool).required = ["x"] ∧
    ¬(∀ p ∈ dupNameTool.parameters, p.required = false →
        p.name ∉ (toMcpSchema dupNameTool).required) := by
  constructor
  · rfl
  · decide

/-- C5 amended: the required array equals, in parameter order, the names of
the parameters whose required flag is true; when the tool's parameter names
are pairwise distinct, every required=true parameter's name appears in it and
no required=false parameter's name does. -/
theorem to_mcp_schema_required_exact :
    (∀ t : MCPTool, (toMcpSchema t).required
        = (t.parameters.filter (fun p => p.required)).map (fun p => p.name)) ∧
    (∀ t : MCPTool, (t.parameters.map (fun p => p.name)).Nodup →
      ∀ p ∈ t.parameters,
        (p.required = true → p.name ∈ (toMcpSchema t).required) ∧
        (p.required = false → p.name ∉ (toMcpSchema t).required)) := by
  have hreq : ∀ t : MCPTool, (toMcpSchema t).required
      = (t.parameters.filter (fun p => p.required)).map (fun p => p.name) := by
    intro t
    have h := toMcpSchema_required_foldl t.parameters [] []
    simpa [toMcpSchema] using h
  refine ⟨hreq, ?_⟩
  intro t hnodup p hp
  constructor
  · intro hr
    rw [hreq]
    exact List.mem_map.mpr ⟨p, List.mem_filter.mpr ⟨hp, by simp [hr]⟩, rfl⟩
  · intro hr hmem
    rw [hreq] at hmem
    obtain ⟨q, hq, hqname⟩ := List.mem_map.mp hmem
    have hqmem := (List.mem_filter.mp hq).1
    have hqreq : q.required = true := by simpa using (List.mem_filter.mp hq).2
    have : q = p := List.inj_on_of_nodup_map hnodup hqmem hp hqname
    rw [this] at hqreq
    rw [hr] at hqreq
    cases hqreq

/-- C5 witness: on the concrete two-parameter tool with distinct names, the
required array is exactly ["a"], "a" (required) is in it and "b" (optional)
is not. -/
theorem to_mcp_schema_required_exact_witness :
    (toMcpSchema okTool).required
        = (okTool.parameters.filter (fun p => p.required)).map (fun p => p.name) ∧
    "a" ∈ (toMcpSchema okTool).required ∧
    "b" ∉ (toMcpSchema okTool).required :=
  ⟨to_mcp_schema_required_exact.1 okTool,
    (to_mcp_schema_required_exact.2 okTool (by decide)
      { name := "a", type := "string", description := "pa", required := true }
      (by decide)).1 rfl,
    (to_mcp_schema_required_exact.2 okTool (by decide)
      { name := "b", type := "integer", description := "pb", required := false }
      (by decide)).2 rfl⟩

/-!
## Detector construction theorems (C4)
-/

/-- C4 counterexample: constructing OpenaiDetector (an LLM-backed strategy)
with no key parameter and no environment key does not raise any error; it
succeeds with the client unset and only a printed warning. -/
theorem openai_detector_no_key_does_not_raise :
    openaiDetectorInit none none = .ok ⟨false, false, true⟩ ∧
    ∀ e : PyErr, openaiDetectorInit none none ≠ .error e := by
  constructor
  · rfl
  · intro e h
    simp [openaiDetectorInit, strTruthy] at h

/-- C4 amended: CamelDetector raises the credential ValueError at
construction time, before any network call, whenever OPENAI_API_KEY is
absent or empty; OpenaiDetector never raises on a missing key — its
construction always succeeds, with the client set exactly when some key is
truthy and the heuristic-degradation warning printed otherwise. -/
theorem llm_detector_construction_credentials :
    (∀ (env : Option String) (modelName : String), strTruthy env = false →
      camelDetectorInit true env modelName =
        .error (.valueErr "OpenAI API key is required for CamelDetector. Set OPENAI_API_KEY environment variable.")) ∧
    (∀ k env : Option String, openaiDetectorInit k env =
      .ok ⟨strTruthy k, strTruthy k || strTruthy env, !(strTruthy k || strTruthy env)⟩) := by
  constructor
  · intro env modelName h
    simp [camelDetectorInit, h]
  · intro k env
    by_cases hk : strTruthy k = true
    · simp [openaiDetectorInit, hk]
    · rw [Bool.not_eq_true] at hk
      by_cases he : strTruthy env = true
      · simp [openaiDetectorInit, hk, he]
      · rw [Bool.not_eq_true] at he
        simp [openaiDetectorInit, hk, he]

/-- C4 witness: concrete constructions with and without a key. -/
theorem llm_detector_construction_credentials_witness :
    camelDetectorInit true none "gpt-4o-mini" =
      .error (.valueErr "OpenAI API key is required for CamelDetector. Set OPENAI_API_KEY environment variable.") ∧
    openaiDetectorInit (some "sk-test") none =
      .ok ⟨strTruthy (some "sk-test"),
        strTruthy (some "sk-test") || strTruthy none,
        !(strTruthy (some "sk-test") || strTruthy none)⟩ :=
  ⟨llm_detector_construction_credentials.1 none "gpt-4o-mini" rfl,
    llm_detector_construction_credentials.2 (some "sk-test") none⟩

/-!
## Argparse extraction theorem (C7)
-/

/-- C7: the scenario file containing a single
parser.add_argument('--name', help='User name') call, with no type keyword
and no store_true action, yields exactly one tool named name, with args
['--name', brace-name placeholder] and exactly one string parameter named
name. -/
theorem argparse_scenario_single_string_flag :
    extractArgparseTools addArgumentScenario =
      [ { name := "name", description := "User name",
          args := ["--name", "{name}"],
          parameters := [ { name := "name", type := "string",
                            description := "The name value", required := none } ] } ] := by
  rfl

/-!
## Keyword ranking theorems (C9)
-/

theorem docWords_of_falsy {f : FunctionInfo} (h : strTruthy f.docstring = false) :
    docWords f = ∅ ∧ docLen f = 0 := by
  rcases hd : f.docstring with _ | d
  · constructor <;> simp [docWords, docLen, hd]
  · rw [hd] at h
    have : d = "" := by simpa [strTruthy] using h
    subst this
    refine ⟨?_, by simp [docLen, hd]⟩
    have hpw : pyWords (pyLower "") = [] := rfl
    simp [docWords, hd, wordSet, hpw]

theorem classWords_of_falsy {f : FunctionInfo} (h : strTruthy f.class_name = false) :
    classWords f = ∅ := by
  rcases hc : f.class_name with _ | c
  · simp [classWords, hc]
  · rw [hc] at h
    have : c = "" := by simpa [strTruthy] using h
    subst this
    have hpw : pyWords (pyReplaceChar (pyLower "") '_' ' ') = [] := rfl
    simp [classWords, hc, wordSet, hpw]

theorem calculateRelevanceScore_eq_specScore (req : String) (f : FunctionInfo) :
    calculateRelevanceScore req f = specScore req f := by
  have hdoc : (if strTruthy f.docstring then ((userWords req ∩ docWords f).card : ℚ) * 2 else 0)
      = 2 * ((userWords req ∩ docWords f).card : ℚ) := by
    by_cases h : strTruthy f.docstring
    · rw [if_pos h]; ring
    · rw [Bool.not_eq_true] at h
      rw [if_neg (by simp [h])]
      rw [(docWords_of_falsy h).1]
      simp
  have hcls : (if strTruthy f.class_name then
        ((userWords req ∩ classWords f).card : ℚ) * (3 / 2) else 0)
      = (3 / 2) * ((userWords req ∩ classWords f).card : ℚ) := by
    by_cases h : strTruthy f.class_name
    · rw [if_pos h]; ring
    · rw [Bool.not_eq_true] at h
      rw [if_neg (by simp [h])]
      rw [classWords_of_falsy h]
      simp
  have hbon : (if strTruthy f.docstring = true ∧ 50 < docLen f then (1 : ℚ) else 0)
      = docBonus f := by
    unfold docBonus
    by_cases h : strTruthy f.docstring
    · simp [h]
    · rw [Bool.not_eq_true] at h
      rw [(docWords_of_falsy h).2]
      simp [h]
  unfold calculateRelevanceScore specScore
  dsimp only
  rw [hdoc, hcls, hbon]
  unfold paramBonus
  ring

/-- C9: the keyword relevance score equals the spec formula
3·|name∩req| + 2·|doc∩req| + 1.5·|class∩req| + 1·|path∩req| + bonuses, and is
monotonically non-decreasing in the four overlap sizes for two functions
with equal flat bonuses. -/
theorem keyword_score_formula_and_monotonicity :
    (∀ (req : String) (f : FunctionInfo),
      calculateRelevanceScore req f = specScore req f) ∧
    (∀ (req : String) (f g : FunctionInfo),
      docBonus f = docBonus g → paramBonus f = paramBonus g →
      (userWords req ∩ nameWords f).card ≤ (userWords req ∩ nameWords g).card →
      (userWords req ∩ docWords f).card ≤ (userWords req ∩ docWords g).card →
      (userWords req ∩ classWords f).card ≤ (userWords req ∩ classWords g).card →
      (userWords req ∩ pathWords f).card ≤ (userWords req ∩ pathWords g).card →
      calculateRelevanceScore req f ≤ calculateRelevanceScore req g) := by
  refine ⟨calculateRelevanceScore_eq_specScore, ?_⟩
  intro req f g hdb hpb h1 h2 h3 h4
  rw [calculateRelevanceScore_eq_specScore, calculateRelevanceScore_eq_specScore]
  unfold specScore
  rw [hdb, hpb]
  have c1 : ((userWords req ∩ nameWords f).card : ℚ) ≤ ((userWords req ∩ nameWords g).card : ℚ) := by
    exact_mod_cast h1
  have c2 : ((userWords req ∩ docWords f).card : ℚ) ≤ ((userWords req ∩ docWords g).card : ℚ) := by
    exact_mod_cast h2
  have c3 : ((userWords req ∩ classWords f).card : ℚ) ≤ ((userWords req ∩ classWords g).card : ℚ) := by
    exact_mod_cast h3
  have c4 : ((userWords req ∩ pathWords f).card : ℚ) ≤ ((userWords req ∩ pathWords g).card : ℚ) := by
    exact_mod_cast h4
  gcongr

/-- C9 witness: on the "add two numbers" request, the score of fAdd equals
the spec formula and dominates the score of the unrelated function with the
same flat bonuses. -/
theorem keyword_score_formula_and_monotonicity_witness :
    calculateRelevanceScore "add two numbers" fAdd = specScore "add two numbers" fAdd ∧
    calculateRelevanceScore "add two numbers" fUnrelated ≤
      calculateRelevanceScore "add two numbers" fAdd :=
  ⟨keyword_score_formula_and_monotonicity.1 "add two numbers" fAdd,
    keyword_score_formula_and_monotonicity.2 "add two numbers" fUnrelated fAdd
      rfl rfl (by decide) (by decide) (by decide) (by decide)⟩

/-!
## Dependency extraction theorems (C8)
-/

/-- C8 counterexample: with "requests" in requirements.txt and
"requests>=2.0" in pyproject.toml, the dependency list contains the bare
package name twice — duplicates are not removed. -/
theorem extract_dependencies_duplicates_counterexample :
    extractDependencies (some reqScenario) (some pyprojectScenario)
      = [ ("requests").data, ("requests").data ] ∧
    ¬ (extractDependencies (some reqScenario) (some pyprojectScenario)).Nodup := by
  constructor
  · rfl
  · decide

/-- C8 amended: dependency extraction concatenates the requirements.txt
entries and the pyproject.toml entries in declaration order and never
deduplicates: each name occurs as often as in the two parts together, and
the concrete scenario yields "requests" twice. -/
theorem extract_dependencies_concat_no_dedup :
    (∀ (reqLines : Option (List (List Char))) (pyproject : Option (List Char))
        (n : List Char),
      (extractDependencies reqLines pyproject).count n
        = (match reqLines with | none => [] | some ls => reqDeps ls).count n
          + (pyprojectDeps pyproject).count n) ∧
    (extractDependencies (some reqScenario) (some pyprojectScenario)).count
        (("requests").data) = 2 := by
  constructor
  · intro r p n
    unfold extractDependencies
    exact List.count_append ..
  · rfl

/-!
## LLM response parsing theorems (C3)
-/

theorem mem_pyStrip {c : Char} {l : List Char} (h : c ∈ pyStrip l) : c ∈ l := by
  unfold pyStrip at h
  rw [List.mem_reverse] at h
  have h2 := (List.dropWhile_sublist _).subset h
  rw [List.mem_reverse] at h2
  exact (List.dropWhile_sublist _).subset h2

theorem pyRFindChar_eq_none {l : List Char} {c : Char} (h : c ∉ l) :
    pyRFindChar l c = none := by
  unfold pyRFindChar
  have hnone : l.reverse.findIdx? (· == c) = none := by
    rw [List.findIdx?_eq_none_iff]
    intro x hx
    rw [List.mem_reverse] at hx
    simp only [beq_eq_false_iff_ne, ne_eq]
    rintro rfl
    exact h hx
  rw [hnone]

/-- C3 counterexample: this LLM response contains no closing bracket at all,
yet camel's LLM-driven tool extraction returns one tool (the bare JSON
object), not an empty list. -/
theorem camel_no_bracket_nonzero_tools :
    (']' ∉ bareObjectResponse) ∧ camelAgentDetectTools bareObjectResponse ≠ [] := by
  refine ⟨by decide, fun h => ?_⟩
  have hlen : (camelAgentDetectTools bareObjectResponse).length = 1 := rfl
  rw [h] at hlen
  simp at hlen

/-- C3 amended: for every LLM response without a closing bracket,
llm_client's analysis-response parsing returns an empty list (and, being a
total function, raises nothing to its caller); camel's extraction also
returns an empty list provided the stripped content does not itself parse as
JSON — a bare parseable JSON object carrying name and description instead
yields that single tool. -/
theorem no_bracket_empty_tools :
    ∀ response : List Char, ']' ∉ response →
      parseAnalysisResponse response = [] ∧
      (jsonLoads (pyStrip response) = none → camelAgentDetectTools response = []) := by
  intro response hnb
  have hsr : ']' ∉ pyStrip response := fun hc => hnb (mem_pyStrip hc)
  have hrf : pyRFindChar (pyStrip response) ']' = none := pyRFindChar_eq_none hsr
  constructor
  · rcases hf : pyFindChar (pyStrip response) '[' with _ | s
    · simp [parseAnalysisResponse, hf, hrf]
    · simp [parseAnalysisResponse, hf, hrf]
  · intro hjl
    rcases hf : pyFindChar (pyStrip response) '[' with _ | s <;>
      simp [camelAgentDetectTools, hf, hrf, hjl]

/-- C3 witness: the response "hello" has no bracket and parses as no JSON
value, so both extractions return zero tools. -/
theorem no_bracket_empty_tools_witness :
    parseAnalysisResponse ("hello").data = [] ∧
    camelAgentDetectTools ("hello").data = [] :=
  ⟨(no_bracket_empty_tools ("hello").data (by decide)).1,
    (no_bracket_empty_tools ("hello").data (by decide)).2 rfl⟩

/-!
## Web route extraction theorems (C6)
-/

/-- C6 amended: on the scenario file the web-tool detection yields exactly
one tool get_user with one integer parameter id; args is the route template
followed by the id placeholder, ['/users/{id}', '{id}'], because the code
appends a placeholder for every required non-query parameter after the
template. -/
theorem web_route_scenario_detection :
    detectWebToolsContent webScenario =
      [ { name := "get_user", description := "GET /users/<int:id> endpoint",
          args := ["/users/{id}", "{id}"],
          parameters := [ { name := "id", type := "integer",
                            description := "The id parameter", required := none } ] } ] := by
  rfl

/-- C6 counterexample: the scenario's tool has args ['/users/{id}', '{id}'],
not the claimed ['/users/{id}']. -/
theorem web_route_scenario_args_counterexample :
    (detectWebToolsContent webScenario).map ToolSpec.args = [["/users/{id}", "{id}"]] ∧
    (detectWebToolsContent webScenario).map ToolSpec.args ≠ [["/users/{id}"]] := by
  refine ⟨rfl, fun h => ?_⟩
  rw [show (detectWebToolsContent webScenario).map ToolSpec.args
      = [["/users/{id}", "{id}"]] from rfl] at h
  exact absurd h (by decide)
